import Mathlib

set_option linter.unusedVariables false

/-!
Shallow embedding of the git-xargs repository-processing core: the per-repository
pipeline `ProcessRepo`, the orchestrator `ProcessRepos` (goroutine fan-out with a
sized wait group and a shared result slice), the configuration constructor
`NewGitXargsConfig`, and the auth check `EnsureGithubOauthTokenSet`.

Pipeline step implementations (cloneLocalRepository, getLocalRepoHeadRef,
getLocalWorkTree, checkoutLocalBranch, executeCommand, UpdateRepoLocal,
UpdateRepoRemote) live outside the given sources; they are modelled as per-repo
oracles recording what each external step would return. The control flow of
`ProcessRepo` and of the goroutine body in `ProcessRepos` is translated exactly
from the source, including its error handling.
-/

/-- Remote repository reference (github.Repository); only the name matters here. -/
structure GithubRepository where
  name : String
deriving DecidableEq, Repr

/-- Handle to a locally cloned repository (a non-nil git.Repository pointer),
modelled as an abstract identifier. -/
abbrev GitRepositoryHandle := Nat

/-- Go error values, modelled as their message strings. -/
abbrev GoError := String

/-- The struct GitXargsRepository from gxargsrepo.go lines 20 to 25. Zero value of
the Go struct: empty strings and nil pointer for the local handle. -/
structure GitXargsRepository where
  RepositoryDir : String
  RepositoryRemote : GithubRepository
  RepositoryLocal : Option GitRepositoryHandle
  Branch : String
deriving DecidableEq, Repr

/-- Names for the externally implemented steps a pipeline run may invoke; used to
record which steps were actually reached. -/
inductive PipelineStep where
  | clone
  | headRef
  | worktree
  | branch
  | command
  | updateLocal
  | updateRemote
deriving DecidableEq, Repr

/-- Per-repository oracles for the externally implemented pipeline steps called by
ProcessRepo: each records the value the step would return for this repository in
this run. -/
structure RepoSteps where
  cloneLocalRepository : Except GoError (String × GitRepositoryHandle)
  getLocalRepoHeadRef : Except GoError String
  getLocalWorkTree : Except GoError Nat
  checkoutLocalBranch : Except GoError String
  executeCommand : Option GoError
  updateRepoLocal : Option GoError
deriving Repr

/-- Result of one ProcessRepo invocation: the returned GitXargsRepository, the
returned error, and the instrumented list of steps that were invoked. -/
structure ProcessRepoRun where
  gxargsrepo : GitXargsRepository
  err : Option GoError
  trace : List PipelineStep
deriving DecidableEq, Repr

/-- Translation of ProcessRepo (source lines 60 to 111). The control flow is exact:
each step short-circuits on error returning the accumulated gxargsrepo; Branch is
set right after branch checkout (line 91); when UpdateRepoLocal fails the source
returns the pair (gxargsrepo, nil), i.e. a nil error (lines 99 to 101); and
RepositoryDir and RepositoryLocal are assigned only after UpdateRepoLocal
succeeds (lines 103 to 104). -/
def ProcessRepo (steps : RepoSteps) (repo : GithubRepository) : ProcessRepoRun :=
  let gxargsrepo : GitXargsRepository :=
    { RepositoryDir := "", RepositoryRemote := repo, RepositoryLocal := none, Branch := "" }
  match steps.cloneLocalRepository with
  | .error cloneErr =>
      { gxargsrepo := gxargsrepo, err := some cloneErr, trace := [.clone] }
  | .ok (repositoryDir, localRepository) =>
    match steps.getLocalRepoHeadRef with
    | .error headRefErr =>
        { gxargsrepo := gxargsrepo, err := some headRefErr, trace := [.clone, .headRef] }
    | .ok _ref =>
      match steps.getLocalWorkTree with
      | .error worktreeErr =>
          { gxargsrepo := gxargsrepo, err := some worktreeErr,
            trace := [.clone, .headRef, .worktree] }
      | .ok _worktree =>
        match steps.checkoutLocalBranch with
        | .error branchErr =>
            { gxargsrepo := gxargsrepo, err := some branchErr,
              trace := [.clone, .headRef, .worktree, .branch] }
        | .ok branchName =>
          let gxargsrepo := { gxargsrepo with Branch := branchName }
          match steps.executeCommand with
          | some commandErr =>
              { gxargsrepo := gxargsrepo, err := some commandErr,
                trace := [.clone, .headRef, .worktree, .branch, .command] }
          | none =>
            match steps.updateRepoLocal with
            | some _updateLocalErr =>
                -- source line 100: the UpdateRepoLocal error is dropped, nil is returned
                { gxargsrepo := gxargsrepo, err := none,
                  trace := [.clone, .headRef, .worktree, .branch, .command, .updateLocal] }
            | none =>
                { gxargsrepo :=
                    { gxargsrepo with
                        RepositoryDir := repositoryDir,
                        RepositoryLocal := some localRepository },
                  err := none,
                  trace := [.clone, .headRef, .worktree, .branch, .command, .updateLocal] }

/-- Oracles for one orchestrator task: the local pipeline steps plus the result of
the external UpdateRepoRemote call (push and pull request). -/
structure TaskSteps where
  repoSteps : RepoSteps
  updateRepoRemote : Option GoError
deriving Repr

/-- Result of one goroutine body from ProcessRepos lines 22 to 44: the value the
task would append to the shared slice (none when it returns early on error), the
error value the goroutine returns (which has no receiver in the source), and the
instrumented step trace. -/
structure TaskRun where
  appended : Option GitXargsRepository
  err : Option GoError
  trace : List PipelineStep
deriving DecidableEq, Repr

/-- Translation of the goroutine body in ProcessRepos (lines 22 to 44): run
ProcessRepo; on error return it (appending nothing); otherwise call
UpdateRepoRemote; on error return it (appending nothing); otherwise append the
gxargsrepo to the shared slice. The call site binds the error component first,
so the early returns are taken exactly when the corresponding error is non-nil. -/
def taskRun (ts : TaskSteps) (repo : GithubRepository) : TaskRun :=
  let pr := ProcessRepo ts.repoSteps repo
  match pr.err with
  | some processLocalErr =>
      { appended := none, err := some processLocalErr, trace := pr.trace }
  | none =>
    match ts.updateRepoRemote with
    | some processRemoteErr =>
        { appended := none, err := some processRemoteErr,
          trace := pr.trace ++ [.updateRemote] }
    | none =>
        { appended := some pr.gxargsrepo, err := none,
          trace := pr.trace ++ [.updateRemote] }

/-- A task succeeds when its goroutine reaches the append of its result. -/
def taskSucceeds (ts : TaskSteps) (repo : GithubRepository) : Bool :=
  (taskRun ts repo).appended.isSome

/-- Error type of the auth package check (types.NoGithubOauthTokenProvidedErr,
wrapped by errors.WithStackTrace which preserves the underlying error). -/
inductive AuthError where
  | NoGithubOauthTokenProvidedErr
deriving DecidableEq, Repr

/-- Model of os.Getenv: an unset variable reads as the empty string. -/
def osGetenv (env : String → Option String) (key : String) : String :=
  (env key).getD ""

/-- Translation of EnsureGithubOauthTokenSet (gxargsrepo.go lines 213 to 219). -/
def EnsureGithubOauthTokenSet (env : String → Option String) : Option AuthError :=
  if osGetenv env "GITHUB_OAUTH_TOKEN" = "" then
    some AuthError.NoGithubOauthTokenProvidedErr
  else
    none

/-- Which git provider backs the local git client (local.NewGitClient argument). -/
inductive GitProvider where
  | production
  | mock
deriving DecidableEq, Repr

/-- Local git client wrapper (local.GitClient). -/
structure GitClient where
  provider : GitProvider
deriving DecidableEq, Repr

/-- Translation of local.NewGitClient applied to a provider. -/
def NewGitClient (p : GitProvider) : GitClient :=
  { provider := p }

/-- Run statistics tracker (stats.RunStats), content irrelevant to the claims. -/
structure RunStats where
deriving DecidableEq, Repr

/-- Translation of stats.NewStatsTracker. -/
def NewStatsTracker : RunStats :=
  {}

/-- GitHub client wrapper (auth.GithubClient); only the host field is kept. The Go
zero value has an empty host. -/
structure GithubClient where
  Host : String
deriving DecidableEq, Repr

/-- Modelled from the spec: the common package of this repository (not among the
given sources) defines non-empty default texts for the commit message and the
pull request title and description, used when the operator supplies none
(spec section 4.1, steps 5, 7 and 9: the configured or default commit message,
the configured title and description). -/
def DefaultCommitMessage : String := "git-xargs programmatic commit"

/-- Modelled from the spec: default pull request title of the common package. -/
def DefaultPullRequestTitle : String := "git-xargs programmatic pull request"

/-- Modelled from the spec: default pull request description of the common package. -/
def DefaultPullRequestDescription : String := "git-xargs programmatic pull request"

/-- The struct config.GitXargsConfig (source lines 39 to 62). MaxConcurrentRepos
and CloneDepth are Go ints, used only with non-negative values; modelled as Nat. -/
structure GitXargsConfig where
  Draft : Bool
  DryRun : Bool
  SkipPullRequests : Bool
  SkipArchivedRepos : Bool
  MaxConcurrentRepos : Nat
  BranchName : String
  BaseBranchName : String
  CommitMessage : String
  PullRequestTitle : String
  PullRequestDescription : String
  ReposFile : String
  GithubOrg : String
  RepoSlice : List String
  RepoFromStdIn : List String
  Args : List String
  GithubClient : GithubClient
  GitClient : GitClient
  Stats : RunStats
  CloneBranch : String
  CloneDepth : Nat
  Assignees : List String
  Internal : Bool
deriving DecidableEq, Repr

/-- Translation of NewGitXargsConfig (source lines 65 to 88). Fields absent from
the Go composite literal (GithubClient, Assignees) take their zero values. -/
def NewGitXargsConfig : GitXargsConfig :=
  { Draft := false
    DryRun := false
    SkipPullRequests := false
    SkipArchivedRepos := false
    MaxConcurrentRepos := 0
    BranchName := ""
    BaseBranchName := ""
    CommitMessage := DefaultCommitMessage
    PullRequestTitle := DefaultPullRequestTitle
    PullRequestDescription := DefaultPullRequestDescription
    ReposFile := ""
    GithubOrg := ""
    RepoSlice := []
    RepoFromStdIn := []
    Args := []
    GithubClient := { Host := "" }
    GitClient := NewGitClient GitProvider.production
    Stats := NewStatsTracker
    CloneBranch := ""
    CloneDepth := 1
    Assignees := []
    Internal := false }

/-- Phase of one orchestrator task (one goroutine plus its wait-group slot) in the
small-step model of ProcessRepos. A task holds its sized-wait-group slot from
wg.Add (just before the goroutine is spawned, line 21) until the deferred
wg.Done runs at goroutine return (line 23). The append to the shared slice
(line 42) is split into its read of the slice header and its write, because the
source performs it with no synchronization. -/
inductive TaskPhase where
  | notStarted
  | started
  | computed (res : Option GitXargsRepository)
  | readList (r : GitXargsRepository) (snapshot : List GitXargsRepository)
  | done (success : Bool)
deriving DecidableEq, Repr

/-- Whether a phase holds a slot of the sized wait group. -/
def isActivePhase : TaskPhase → Bool
  | .started => true
  | .computed _ => true
  | .readList _ _ => true
  | _ => false

/-- Whether a task has finished (its deferred wg.Done has run). -/
def isDonePhase : TaskPhase → Bool
  | .done _ => true
  | _ => false

/-- Global state of one ProcessRepos run: the phase of each task and the shared
slice gitXargsRepositories. -/
structure OrchState where
  tasks : List TaskPhase
  shared : List GitXargsRepository
deriving DecidableEq, Repr

/-- Environment of one ProcessRepos run: the concurrency ceiling
MaxConcurrentRepos and the per-task oracles and repositories. -/
structure OrchEnv where
  maxConcurrentRepos : Nat
  steps : Nat → TaskSteps
  repoAt : Nat → GithubRepository

/-- Number of tasks currently holding a wait-group slot. -/
def activeCount (l : List TaskPhase) : Nat :=
  l.countP isActivePhase

/-- The value task i would append to the shared slice (none when it errors). -/
def resultOf (env : OrchEnv) (i : Nat) : Option GitXargsRepository :=
  (taskRun (env.steps i) (env.repoAt i)).appended

/-- Scheduler actions of the ProcessRepos model, each naming the task it advances. -/
inductive OrchAct where
  | start (i : Nat)
  | compute (i : Nat)
  | finishErr (i : Nat)
  | read (i : Nat)
  | write (i : Nat)
deriving DecidableEq, Repr

/-- One scheduler step of the ProcessRepos model; none when the action is not
enabled. start models wg.Add of the sized wait group: with a positive ceiling it
is enabled only while fewer than maxConcurrentRepos tasks hold a slot, and with
ceiling 0 it is always enabled (the source comment on lines 16 to 18:
MaxConcurrentRepos == 0 falls back to unlimited). compute runs the goroutine
body up to its early returns; finishErr is the goroutine returning without
appending; read and write are the two halves of the unsynchronized append
gitXargsRepositories = append(gitXargsRepositories, gxargsrepo) on line 42. -/
def applyAction (env : OrchEnv) : OrchAct → OrchState → Option OrchState
  | .start i, s =>
    match s.tasks[i]? with
    | some .notStarted =>
        if env.maxConcurrentRepos = 0 ∨ activeCount s.tasks < env.maxConcurrentRepos then
          some { s with tasks := s.tasks.set i .started }
        else
          none
    | _ => none
  | .compute i, s =>
    match s.tasks[i]? with
    | some .started =>
        some { s with tasks := s.tasks.set i (.computed (resultOf env i)) }
    | _ => none
  | .finishErr i, s =>
    match s.tasks[i]? with
    | some (.computed none) =>
        some { s with tasks := s.tasks.set i (.done false) }
    | _ => none
  | .read i, s =>
    match s.tasks[i]? with
    | some (.computed (some r)) =>
        some { s with tasks := s.tasks.set i (.readList r s.shared) }
    | _ => none
  | .write i, s =>
    match s.tasks[i]? with
    | some (.readList r snapshot) =>
        some { tasks := s.tasks.set i (.done true), shared := snapshot ++ [r] }
    | _ => none

/-- Initial state of a run over n repositories. -/
def initState (n : Nat) : OrchState :=
  { tasks := List.replicate n .notStarted, shared := [] }

/-- Reachability in the ProcessRepos model under some interleaving of task steps. -/
inductive OrchReach (env : OrchEnv) : OrchState → OrchState → Prop where
  | refl (s : OrchState) : OrchReach env s s
  | step {s t u : OrchState} (a : OrchAct) (h : applyAction env a s = some t)
      (htu : OrchReach env t u) : OrchReach env s u

/-- Execute a concrete schedule of actions; none if some action is not enabled. -/
def runActions (env : OrchEnv) : List OrchAct → OrchState → Option OrchState
  | [], s => some s
  | a :: rest, s =>
    match applyAction env a s with
    | some t => runActions env rest t
    | none => none

/-- The value ProcessRepos returns once the run is over (source line 48): the
shared slice together with a nil error. -/
def processReposReturn (s : OrchState) : List GitXargsRepository × Option GoError :=
  (s.shared, none)

/-- A repository value is sound for a run when it is exactly what some task of the
run would append on success. -/
def SoundResult (env : OrchEnv) (n : Nat) (r : GitXargsRepository) : Prop :=
  ∃ i, i < n ∧ resultOf env i = some r

/-- Invariant of a single task phase: the data a phase carries agrees with the
pure per-task computation, and any snapshot of the shared slice is sound. -/
def PhaseOk (env : OrchEnv) (n : Nat) (i : Nat) : TaskPhase → Prop
  | .notStarted => True
  | .started => True
  | .computed res => res = resultOf env i
  | .readList r snapshot =>
      resultOf env i = some r ∧ ∀ x ∈ snapshot, SoundResult env n x
  | .done b => b = (resultOf env i).isSome

/-- Global invariant of the ProcessRepos model. -/
structure OrchInv (env : OrchEnv) (n : Nat) (s : OrchState) : Prop where
  len : s.tasks.length = n
  phase : ∀ i y, s.tasks[i]? = some y → PhaseOk env n i y
  shared : ∀ x ∈ s.shared, SoundResult env n x

/-- Per-repository oracles of a pipeline in which every step succeeds. -/
def okRepoSteps : RepoSteps :=
  { cloneLocalRepository := Except.ok ("/tmp/git-xargs-repo", 1)
    getLocalRepoHeadRef := Except.ok "refs/heads/master"
    getLocalWorkTree := Except.ok 1
    checkoutLocalBranch := Except.ok "git-xargs-branch"
    executeCommand := none
    updateRepoLocal := none }

/-- Task oracles in which every local and remote step succeeds. -/
def okTaskSteps : TaskSteps :=
  { repoSteps := okRepoSteps, updateRepoRemote := none }

/-- Per-repository oracles of a pipeline whose clone step fails. -/
def cloneFailRepoSteps : RepoSteps :=
  { cloneLocalRepository := Except.error "clone failed"
    getLocalRepoHeadRef := Except.ok "refs/heads/master"
    getLocalWorkTree := Except.ok 1
    checkoutLocalBranch := Except.ok "git-xargs-branch"
    executeCommand := none
    updateRepoLocal := none }

/-- Task oracles for a pipeline whose clone step fails. -/
def cloneFailTaskSteps : TaskSteps :=
  { repoSteps := cloneFailRepoSteps, updateRepoRemote := none }

/-- Per-repository oracles of a pipeline that clones and branches fine but whose
operator-supplied command exits non-zero. -/
def cmdFailRepoSteps : RepoSteps :=
  { cloneLocalRepository := Except.ok ("/tmp/git-xargs-repo", 1)
    getLocalRepoHeadRef := Except.ok "refs/heads/master"
    getLocalWorkTree := Except.ok 1
    checkoutLocalBranch := Except.ok "git-xargs-branch"
    executeCommand := some "exit status 1"
    updateRepoLocal := none }

/-- Environment of a two-repository run with ceiling 1, all steps succeeding. -/
def c1env : OrchEnv :=
  { maxConcurrentRepos := 1
    steps := fun _ => okTaskSteps
    repoAt := fun _ => { name := "repo-c1" } }

/-- Environment of a three-repository run with ceiling 0, all steps succeeding. -/
def c1env0 : OrchEnv :=
  { maxConcurrentRepos := 0
    steps := fun _ => okTaskSteps
    repoAt := fun _ => { name := "repo-c1u" } }

/-- Environment of a one-repository run whose single pipeline fails at clone. -/
def c2env : OrchEnv :=
  { maxConcurrentRepos := 0
    steps := fun _ => cloneFailTaskSteps
    repoAt := fun _ => { name := "repo-c2" } }

/-- Final state of the run of c2env. -/
def c2final : OrchState :=
  { tasks := [TaskPhase.done false], shared := [] }

/-- Environment of a one-repository run whose pipeline clones fine but whose
command exits non-zero. -/
def c3env : OrchEnv :=
  { maxConcurrentRepos := 0
    steps := fun _ => { repoSteps := cmdFailRepoSteps, updateRepoRemote := none }
    repoAt := fun _ => { name := "repo-c3" } }

/-- Final state of the run of c3env. -/
def c3final : OrchState :=
  { tasks := [TaskPhase.done false], shared := [] }

/-- Environment of a one-repository fully successful run. -/
def c3wenv : OrchEnv :=
  { maxConcurrentRepos := 1
    steps := fun _ => okTaskSteps
    repoAt := fun _ => { name := "repo-c3w" } }

/-- The result value the task of c3wenv appends. -/
def c3wrepo : GitXargsRepository :=
  { RepositoryDir := "/tmp/git-xargs-repo"
    RepositoryRemote := { name := "repo-c3w" }
    RepositoryLocal := some 1
    Branch := "git-xargs-branch" }

/-- Final state of the run of c3wenv. -/
def c3wfinal : OrchState :=
  { tasks := [TaskPhase.done true], shared := [c3wrepo] }

/-- Environment of a two-repository run, both pipelines fully successful, with no
concurrency ceiling. -/
def c4env : OrchEnv :=
  { maxConcurrentRepos := 0
    steps := fun _ => okTaskSteps
    repoAt := fun i => if i = 0 then { name := "repo-c4-0" } else { name := "repo-c4-1" } }

/-- The result value task 1 of c4env appends. -/
def c4repo1 : GitXargsRepository :=
  { RepositoryDir := "/tmp/git-xargs-repo"
    RepositoryRemote := { name := "repo-c4-1" }
    RepositoryLocal := some 1
    Branch := "git-xargs-branch" }

/-- Final state of a racing schedule of c4env in which both tasks read the empty
slice before either writes: the second write overwrites the first. -/
def c4final : OrchState :=
  { tasks := [TaskPhase.done true, TaskPhase.done true], shared := [c4repo1] }

/-- Per-repository oracles of a pipeline whose worktree status check inside
UpdateRepoLocal fails. -/
def c5repoSteps : RepoSteps :=
  { cloneLocalRepository := Except.ok ("/tmp/git-xargs-repo", 1)
    getLocalRepoHeadRef := Except.ok "refs/heads/master"
    getLocalWorkTree := Except.ok 1
    checkoutLocalBranch := Except.ok "git-xargs-branch"
    executeCommand := none
    updateRepoLocal := some "worktree status check failed" }

/-- Task oracles of a pipeline that reaches the command step and fails there. -/
def c6taskSteps : TaskSteps :=
  { repoSteps :=
      { cloneLocalRepository := Except.ok ("/tmp/git-xargs-c6", 6)
        getLocalRepoHeadRef := Except.ok "refs/heads/main"
        getLocalWorkTree := Except.ok 6
        checkoutLocalBranch := Except.ok "git-xargs-branch"
        executeCommand := some "exit status 2"
        updateRepoLocal := none }
    updateRepoRemote := none }

/-- Environment of a two-repository run with ceiling 1 in which repository 0 fails
at clone and repository 1 succeeds end to end. -/
def c7env : OrchEnv :=
  { maxConcurrentRepos := 1
    steps := fun i => if i = 0 then cloneFailTaskSteps else okTaskSteps
    repoAt := fun i => if i = 0 then { name := "repo-c7-0" } else { name := "repo-c7-1" } }

/-- The result value task 1 of c7env appends. -/
def c7repo1 : GitXargsRepository :=
  { RepositoryDir := "/tmp/git-xargs-repo"
    RepositoryRemote := { name := "repo-c7-1" }
    RepositoryLocal := some 1
    Branch := "git-xargs-branch" }

/-- Final state of the run of c7env: task 0 done with failure, task 1 done with
success. -/
def c7final : OrchState :=
  { tasks := [TaskPhase.done false, TaskPhase.done true], shared := [c7repo1] }

/-- Per-repository oracles of a pipeline whose clone succeeds and whose HEAD ref
lookup then fails. -/
def c9repoSteps : RepoSteps :=
  { cloneLocalRepository := Except.ok ("/tmp/git-xargs-c9", 9)
    getLocalRepoHeadRef := Except.error "head ref lookup failed"
    getLocalWorkTree := Except.ok 9
    checkoutLocalBranch := Except.ok "git-xargs-branch"
    executeCommand := none
    updateRepoLocal := none }

theorem runActions_reach (env : OrchEnv) :
    ∀ (acts : List OrchAct) (s u : OrchState),
      runActions env acts s = some u → OrchReach env s u := by
  intro acts
  induction acts with
  | nil =>
      intro s u h
      simp only [runActions, Option.some.injEq] at h
      exact h ▸ OrchReach.refl s
  | cons a rest ih =>
      intro s u h
      simp only [runActions] at h
      cases ha : applyAction env a s with
      | none => rw [ha] at h; exact absurd h (by simp)
      | some t =>
          rw [ha] at h
          exact OrchReach.step a ha (ih t u h)

theorem orchReach_trans {env : OrchEnv} {s t u : OrchState}
    (h1 : OrchReach env s t) : OrchReach env t u → OrchReach env s u := by
  induction h1 with
  | refl s => exact id
  | step a ha htu ih => intro h2; exact OrchReach.step a ha (ih h2)

theorem countP_set_balance {α : Type} (p : α → Bool) :
    ∀ (l : List α) (i : Nat) (x y : α), l[i]? = some y →
      (l.set i x).countP p + (if p y then 1 else 0) =
        l.countP p + (if p x then 1 else 0) := by
  intro l
  induction l with
  | nil => intro i x y h; simp at h
  | cons a t ih =>
      intro i x y h
      cases i with
      | zero =>
          simp only [List.getElem?_cons_zero, Option.some.injEq] at h
          subst h
          simp only [List.set_cons_zero, List.countP_cons]
          cases hpx : p x <;> cases hpa : p a <;> simp [hpx, hpa]
      | succ i =>
          simp only [List.getElem?_cons_succ] at h
          simp only [List.set_cons_succ, List.countP_cons]
          have hb := ih i x y h
          cases hpx : p x <;> cases hpy : p y <;>
            simp [hpx, hpy] at hb ⊢ <;> omega

theorem getElem?_set_cases {α : Type} (l : List α) (i j : Nat) (x y : α)
    (h : (l.set i x)[j]? = some y) :
    (i = j ∧ y = x ∧ i < l.length) ∨ (i ≠ j ∧ l[j]? = some y) := by
  rw [List.getElem?_set] at h
  by_cases hij : i = j
  · rw [if_pos hij] at h
    by_cases hlen : i < l.length
    · rw [if_pos hlen] at h
      injection h with h2
      exact Or.inl ⟨hij, h2.symm, hlen⟩
    · rw [if_neg hlen] at h
      exact absurd h (by simp)
  · rw [if_neg hij] at h
    exact Or.inr ⟨hij, h⟩

theorem orchInv_init (env : OrchEnv) (n : Nat) : OrchInv env n (initState n) := by
  refine ⟨by simp [initState], ?_, by simp [initState]⟩
  intro i y h
  simp only [initState] at h
  rw [List.getElem?_replicate] at h
  by_cases hi : i < n
  · rw [if_pos hi] at h
    cases h
    trivial
  · rw [if_neg hi] at h
    exact absurd h (by simp)

theorem orchInv_set (env : OrchEnv) (n : Nat) (s : OrchState) (hInv : OrchInv env n s)
    (i : Nat) (ph : TaskPhase) (hph : PhaseOk env n i ph)
    (sh : List GitXargsRepository) (hsh : ∀ x ∈ sh, SoundResult env n x) :
    OrchInv env n { tasks := s.tasks.set i ph, shared := sh } := by
  refine ⟨by simp [List.length_set, hInv.len], ?_, hsh⟩
  intro j y h
  rcases getElem?_set_cases _ _ _ _ _ h with ⟨hij, hyx, _⟩ | ⟨hij, hj⟩
  · subst hij; subst hyx; exact hph
  · exact hInv.phase j y hj

theorem orchInv_step (env : OrchEnv) (n : Nat) (a : OrchAct) (s u : OrchState)
    (hInv : OrchInv env n s) (h : applyAction env a s = some u) : OrchInv env n u := by
  cases a with
  | start i =>
      simp only [applyAction] at h
      split at h
      next heq =>
        split at h
        · cases h
          exact orchInv_set env n s hInv i .started trivial s.shared hInv.shared
        · exact absurd h (by simp)
      next => exact absurd h (by simp)
  | compute i =>
      simp only [applyAction] at h
      split at h
      next heq =>
        cases h
        exact orchInv_set env n s hInv i (.computed (resultOf env i)) rfl s.shared hInv.shared
      next => exact absurd h (by simp)
  | finishErr i =>
      simp only [applyAction] at h
      split at h
      next heq =>
        cases h
        have hph : (none : Option GitXargsRepository) = resultOf env i := hInv.phase i _ heq
        refine orchInv_set env n s hInv i (.done false) ?_ s.shared hInv.shared
        show false = (resultOf env i).isSome
        rw [← hph]
        rfl
      next => exact absurd h (by simp)
  | read i =>
      simp only [applyAction] at h
      split at h
      next r heq =>
        cases h
        have hc : some r = resultOf env i := hInv.phase i _ heq
        refine orchInv_set env n s hInv i (.readList r s.shared) ?_ s.shared hInv.shared
        exact ⟨hc.symm, hInv.shared⟩
      next => exact absurd h (by simp)
  | write i =>
      simp only [applyAction] at h
      split at h
      next r snapshot heq =>
        cases h
        have hph : resultOf env i = some r ∧ ∀ x ∈ snapshot, SoundResult env n x :=
          hInv.phase i _ heq
        have hin : i < s.tasks.length := by
          cases Nat.lt_or_ge i s.tasks.length with
          | inl hlt => exact hlt
          | inr hge => rw [List.getElem?_eq_none hge] at heq; cases heq
        refine orchInv_set env n s hInv i (.done true) ?_ (snapshot ++ [r]) ?_
        · show true = (resultOf env i).isSome
          rw [hph.1]
          rfl
        · intro x hx
          rcases List.mem_append.mp hx with hx | hx
          · exact hph.2 x hx
          · have hxr : x = r := by simpa using hx
            subst hxr
            exact ⟨i, hInv.len ▸ hin, hph.1⟩
      next => exact absurd h (by simp)

theorem orchInv_mono (env : OrchEnv) (n : Nat) {s u : OrchState}
    (h : OrchReach env s u) (h0 : OrchInv env n s) : OrchInv env n u := by
  induction h with
  | refl s => exact h0
  | step a ha htu ih => exact ih (orchInv_step env n a _ _ h0 ha)

theorem orchInv_reach (env : OrchEnv) (n : Nat) {s : OrchState}
    (h : OrchReach env (initState n) s) : OrchInv env n s :=
  orchInv_mono env n h (orchInv_init env n)

theorem applyAction_start (env : OrchEnv) (s : OrchState) (i : Nat)
    (heq : s.tasks[i]? = some TaskPhase.notStarted)
    (hguard : env.maxConcurrentRepos = 0 ∨ activeCount s.tasks < env.maxConcurrentRepos) :
    applyAction env (OrchAct.start i) s
      = some { s with tasks := s.tasks.set i TaskPhase.started } := by
  simp only [applyAction, heq]
  rw [if_pos hguard]

theorem applyAction_compute (env : OrchEnv) (s : OrchState) (i : Nat)
    (heq : s.tasks[i]? = some TaskPhase.started) :
    applyAction env (OrchAct.compute i) s
      = some { s with tasks := s.tasks.set i (TaskPhase.computed (resultOf env i)) } := by
  simp only [applyAction, heq]

theorem applyAction_finishErr (env : OrchEnv) (s : OrchState) (i : Nat)
    (heq : s.tasks[i]? = some (TaskPhase.computed none)) :
    applyAction env (OrchAct.finishErr i) s
      = some { s with tasks := s.tasks.set i (TaskPhase.done false) } := by
  simp only [applyAction, heq]

theorem applyAction_read (env : OrchEnv) (s : OrchState) (i : Nat) (r : GitXargsRepository)
    (heq : s.tasks[i]? = some (TaskPhase.computed (some r))) :
    applyAction env (OrchAct.read i) s
      = some { s with tasks := s.tasks.set i (TaskPhase.readList r s.shared) } := by
  simp only [applyAction, heq]

theorem applyAction_write (env : OrchEnv) (s : OrchState) (i : Nat)
    (r : GitXargsRepository) (snapshot : List GitXargsRepository)
    (heq : s.tasks[i]? = some (TaskPhase.readList r snapshot)) :
    applyAction env (OrchAct.write i) s
      = some { tasks := s.tasks.set i (TaskPhase.done true), shared := snapshot ++ [r] } := by
  simp only [applyAction, heq]

theorem activeCount_step (env : OrchEnv) (a : OrchAct) (s u : OrchState)
    (h : applyAction env a s = some u) (hM : 0 < env.maxConcurrentRepos)
    (hle : activeCount s.tasks ≤ env.maxConcurrentRepos) :
    activeCount u.tasks ≤ env.maxConcurrentRepos := by
  cases a with
  | start i =>
      simp only [applyAction] at h
      split at h
      next heq =>
        split at h
        next hguard =>
          cases h
          have hb := countP_set_balance isActivePhase s.tasks i TaskPhase.started _ heq
          simp [isActivePhase] at hb
          have hlt : activeCount s.tasks < env.maxConcurrentRepos := by
            rcases hguard with h0 | hlt
            · omega
            · exact hlt
          show activeCount (s.tasks.set i TaskPhase.started) ≤ env.maxConcurrentRepos
          simp only [activeCount] at *
          omega
        next => exact absurd h (by simp)
      next => exact absurd h (by simp)
  | compute i =>
      simp only [applyAction] at h
      split at h
      next heq =>
        cases h
        have hb := countP_set_balance isActivePhase s.tasks i
          (TaskPhase.computed (resultOf env i)) _ heq
        simp [isActivePhase] at hb
        show activeCount (s.tasks.set i (TaskPhase.computed (resultOf env i)))
          ≤ env.maxConcurrentRepos
        simp only [activeCount] at *
        omega
      next => exact absurd h (by simp)
  | finishErr i =>
      simp only [applyAction] at h
      split at h
      next heq =>
        cases h
        have hb := countP_set_balance isActivePhase s.tasks i (TaskPhase.done false) _ heq
        simp [isActivePhase] at hb
        show activeCount (s.tasks.set i (TaskPhase.done false)) ≤ env.maxConcurrentRepos
        simp only [activeCount] at *
        omega
      next => exact absurd h (by simp)
  | read i =>
      simp only [applyAction] at h
      split at h
      next r heq =>
        cases h
        have hb := countP_set_balance isActivePhase s.tasks i (TaskPhase.readList r s.shared) _ heq
        simp [isActivePhase] at hb
        show activeCount (s.tasks.set i (TaskPhase.readList r s.shared)) ≤ env.maxConcurrentRepos
        simp only [activeCount] at *
        omega
      next => exact absurd h (by simp)
  | write i =>
      simp only [applyAction] at h
      split at h
      next r snapshot heq =>
        cases h
        have hb := countP_set_balance isActivePhase s.tasks i (TaskPhase.done true) _ heq
        simp [isActivePhase] at hb
        show activeCount (s.tasks.set i (TaskPhase.done true)) ≤ env.maxConcurrentRepos
        simp only [activeCount] at *
        omega
      next => exact absurd h (by simp)

theorem activeCount_mono (env : OrchEnv) {s u : OrchState}
    (h : OrchReach env s u) (hM : 0 < env.maxConcurrentRepos)
    (h0 : activeCount s.tasks ≤ env.maxConcurrentRepos) :
    activeCount u.tasks ≤ env.maxConcurrentRepos := by
  induction h with
  | refl s => exact h0
  | step a ha htu ih => exact ih (activeCount_step env a _ _ ha hM h0)

theorem activeCount_init (n : Nat) : activeCount (initState n).tasks = 0 := by
  simp [initState, activeCount, List.countP_replicate, isActivePhase]

theorem set_after_replicate {α : Type} (a b c : α) :
    ∀ (k : Nat) (l : List α),
      (List.replicate k a ++ b :: l).set k c = List.replicate k a ++ c :: l := by
  intro k
  induction k with
  | zero => intro l; simp
  | succ k ih => intro l; simp [List.replicate_succ, ih]

theorem getElem?_after_replicate {α : Type} (a b : α) :
    ∀ (k : Nat) (l : List α), (List.replicate k a ++ b :: l)[k]? = some b := by
  intro k
  induction k with
  | zero => intro l; simp
  | succ k ih =>
      intro l
      rw [List.replicate_succ, List.cons_append, List.getElem?_cons_succ]
      exact ih l

theorem reach_all_started (env : OrchEnv) (hM : env.maxConcurrentRepos = 0) (n : Nat) :
    OrchReach env (initState n)
      { tasks := List.replicate n TaskPhase.started, shared := [] } := by
  have key : ∀ k, k ≤ n → OrchReach env (initState n)
      { tasks := List.replicate k TaskPhase.started
          ++ List.replicate (n - k) TaskPhase.notStarted, shared := [] } := by
    intro k
    induction k with
    | zero =>
        intro _
        have hs : ({ tasks := List.replicate 0 TaskPhase.started
            ++ List.replicate (n - 0) TaskPhase.notStarted, shared := [] } : OrchState)
            = initState n := by
          simp [initState]
        rw [hs]
        exact OrchReach.refl _
    | succ k ih =>
        intro hk
        have hk' : k ≤ n := Nat.le_of_succ_le hk
        have hsplit : List.replicate (n - k) TaskPhase.notStarted
            = TaskPhase.notStarted :: List.replicate (n - (k + 1)) TaskPhase.notStarted := by
          have : n - k = (n - (k + 1)) + 1 := by omega
          rw [this, List.replicate_succ]
        refine orchReach_trans (ih hk') ?_
        rw [hsplit]
        have happly := applyAction_start env
          { tasks := List.replicate k TaskPhase.started
              ++ TaskPhase.notStarted :: List.replicate (n - (k + 1)) TaskPhase.notStarted,
            shared := [] }
          k (getElem?_after_replicate _ _ _ _) (Or.inl hM)
        simp only [set_after_replicate] at happly
        have hlist : List.replicate (k + 1) TaskPhase.started
            ++ List.replicate (n - (k + 1)) TaskPhase.notStarted
            = List.replicate k TaskPhase.started
              ++ TaskPhase.started :: List.replicate (n - (k + 1)) TaskPhase.notStarted := by
          rw [List.replicate_succ']
          simp
        rw [hlist]
        exact OrchReach.step (OrchAct.start k) happly (OrchReach.refl _)
  have hfin := key n (Nat.le_refl n)
  simpa [Nat.sub_self] using hfin

theorem activeCount_all_started (n : Nat) :
    activeCount (List.replicate n TaskPhase.started) = n := by
  simp [activeCount, List.countP_replicate, isActivePhase]

theorem active_phase_not_stuck (env : OrchEnv) (s : OrchState) (j : Nat) (y : TaskPhase)
    (hy : s.tasks[j]? = some y) (hact : isActivePhase y = true) :
    ∃ a u, applyAction env a s = some u := by
  cases y with
  | started => exact ⟨OrchAct.compute j, _, applyAction_compute env s j hy⟩
  | computed res =>
      cases res with
      | none => exact ⟨OrchAct.finishErr j, _, applyAction_finishErr env s j hy⟩
      | some r => exact ⟨OrchAct.read j, _, applyAction_read env s j r hy⟩
  | readList r snapshot => exact ⟨OrchAct.write j, _, applyAction_write env s j r snapshot hy⟩
  | notStarted => simp [isActivePhase] at hact
  | done b => simp [isActivePhase] at hact

theorem stuck_tasks_done (env : OrchEnv) (n : Nat) (s : OrchState)
    (hInv : OrchInv env n s)
    (hstuck : ∀ a u, applyAction env a s ≠ some u) (i : Nat) (hi : i < n) :
    s.tasks[i]? = some (TaskPhase.done ((resultOf env i).isSome)) := by
  have hlen : i < s.tasks.length := by rw [hInv.len]; exact hi
  obtain ⟨y, hy⟩ : ∃ y, s.tasks[i]? = some y := ⟨s.tasks[i], List.getElem?_eq_getElem hlen⟩
  have hph := hInv.phase i y hy
  cases y with
  | notStarted =>
      by_cases hguard : env.maxConcurrentRepos = 0
        ∨ activeCount s.tasks < env.maxConcurrentRepos
      · exact absurd (applyAction_start env s i hy hguard) (hstuck _ _)
      · push_neg at hguard
        have hpos : 0 < activeCount s.tasks := by
          obtain ⟨h1, h2⟩ := hguard
          omega
        obtain ⟨z, hz, hzact⟩ := List.countP_pos_iff.mp hpos
        obtain ⟨j, hj⟩ := List.mem_iff_getElem?.mp hz
        obtain ⟨a, u, ha⟩ := active_phase_not_stuck env s j z hj hzact
        exact absurd ha (hstuck _ _)
  | started => exact absurd (applyAction_compute env s i hy) (hstuck _ _)
  | computed res =>
      cases res with
      | none => exact absurd (applyAction_finishErr env s i hy) (hstuck _ _)
      | some r => exact absurd (applyAction_read env s i r hy) (hstuck _ _)
  | readList r snapshot =>
      exact absurd (applyAction_write env s i r snapshot hy) (hstuck _ _)
  | done b =>
      have hb : b = (resultOf env i).isSome := hph
      rw [hy, hb]

theorem allDone_not_enabled (env : OrchEnv) (s : OrchState)
    (h : ∀ y ∈ s.tasks, isDonePhase y = true) :
    ∀ a u, applyAction env a s ≠ some u := by
  intro a u ha
  cases a with
  | start i =>
      simp only [applyAction] at ha
      split at ha
      next heq =>
        have hmem := h _ (List.getElem?_mem heq)
        simp [isDonePhase] at hmem
      next => simp at ha
  | compute i =>
      simp only [applyAction] at ha
      split at ha
      next heq =>
        have hmem := h _ (List.getElem?_mem heq)
        simp [isDonePhase] at hmem
      next => simp at ha
  | finishErr i =>
      simp only [applyAction] at ha
      split at ha
      next heq =>
        have hmem := h _ (List.getElem?_mem heq)
        simp [isDonePhase] at hmem
      next => simp at ha
  | read i =>
      simp only [applyAction] at ha
      split at ha
      next r heq =>
        have hmem := h _ (List.getElem?_mem heq)
        simp [isDonePhase] at hmem
      next => simp at ha
  | write i =>
      simp only [applyAction] at ha
      split at ha
      next r snapshot heq =>
        have hmem := h _ (List.getElem?_mem heq)
        simp [isDonePhase] at hmem
      next => simp at ha

/-- C8: EnsureGithubOauthTokenSet returns NoGithubOauthTokenProvidedErr exactly
when the GITHUB_OAUTH_TOKEN environment variable is unset or empty, and nil
otherwise. -/
theorem ensureGithubOauthTokenSet_spec (env : String → Option String) :
    (EnsureGithubOauthTokenSet env = some AuthError.NoGithubOauthTokenProvidedErr ↔
      (env "GITHUB_OAUTH_TOKEN" = none ∨ env "GITHUB_OAUTH_TOKEN" = some "")) ∧
    (EnsureGithubOauthTokenSet env = none ↔
      ∃ s, env "GITHUB_OAUTH_TOKEN" = some s ∧ s ≠ "") := by
  unfold EnsureGithubOauthTokenSet osGetenv
  cases h : env "GITHUB_OAUTH_TOKEN" with
  | none => simp [h]
  | some s =>
      by_cases hs : s = ""
      · subst hs
        simp [h]
      · simp [h, hs]

/-- C10: NewGitXargsConfig defaults MaxConcurrentRepos to 0, CloneDepth to 1, the
commit message and pull request title and description to the non-empty package
defaults, and the dry-run, draft, skip-PR and skip-archived flags to false. -/
theorem newGitXargsConfig_defaults :
    NewGitXargsConfig.MaxConcurrentRepos = 0 ∧
    NewGitXargsConfig.CloneDepth = 1 ∧
    NewGitXargsConfig.CommitMessage = DefaultCommitMessage ∧
    NewGitXargsConfig.PullRequestTitle = DefaultPullRequestTitle ∧
    NewGitXargsConfig.PullRequestDescription = DefaultPullRequestDescription ∧
    DefaultCommitMessage ≠ "" ∧
    DefaultPullRequestTitle ≠ "" ∧
    DefaultPullRequestDescription ≠ "" ∧
    NewGitXargsConfig.DryRun = false ∧
    NewGitXargsConfig.Draft = false ∧
    NewGitXargsConfig.SkipPullRequests = false ∧
    NewGitXargsConfig.SkipArchivedRepos = false := by
  refine ⟨rfl, rfl, rfl, rfl, rfl, ?_, ?_, ?_, rfl, rfl, rfl, rfl⟩ <;> decide

/-- C5 is violated by the code: when the worktree status check inside
UpdateRepoLocal fails, ProcessRepo drops the error (source line 100 returns a nil
error) and thus reports success for that repository instead of a StagingError. -/
theorem processRepo_swallows_staging_error :
    c5repoSteps.updateRepoLocal = some "worktree status check failed" ∧
    PipelineStep.updateLocal ∈ (ProcessRepo c5repoSteps { name := "repo-c5" }).trace ∧
    (ProcessRepo c5repoSteps { name := "repo-c5" }).err = none := by
  refine ⟨rfl, ?_, rfl⟩
  decide

/-- C9 is violated by the code: after a successful clone, a failure of the next
step (HEAD ref lookup) returns a PipelineResult whose RepositoryLocal is still
nil and whose RepositoryDir is still empty, because ProcessRepo populates those
fields only at the very end of the pipeline. -/
theorem processRepo_handle_not_populated_after_clone :
    c9repoSteps.cloneLocalRepository = Except.ok ("/tmp/git-xargs-c9", 9) ∧
    (ProcessRepo c9repoSteps { name := "repo-c9" }).err = some "head ref lookup failed" ∧
    (ProcessRepo c9repoSteps { name := "repo-c9" }).gxargsrepo.RepositoryLocal = none ∧
    (ProcessRepo c9repoSteps { name := "repo-c9" }).gxargsrepo.RepositoryDir = "" :=
  ⟨rfl, rfl, rfl, rfl⟩

/-- C9 amended: in every ProcessRepo result, RepositoryDir and RepositoryLocal are
empty and nil unless the whole local pipeline, including the staging and commit
step UpdateRepoLocal, succeeded, in which case they carry the values produced by
the clone step. In particular, results returned on a failure after a successful
clone still carry the empty values. -/
theorem processRepo_handle_population (steps : RepoSteps) (repo : GithubRepository) :
    ((ProcessRepo steps repo).gxargsrepo.RepositoryDir = ""
      ∧ (ProcessRepo steps repo).gxargsrepo.RepositoryLocal = none)
    ∨ (∃ d l, steps.cloneLocalRepository = Except.ok (d, l)
        ∧ steps.executeCommand = none ∧ steps.updateRepoLocal = none
        ∧ (ProcessRepo steps repo).err = none
        ∧ (ProcessRepo steps repo).gxargsrepo.RepositoryDir = d
        ∧ (ProcessRepo steps repo).gxargsrepo.RepositoryLocal = some l) := by
  unfold ProcessRepo
  cases hclone : steps.cloneLocalRepository with
  | error e => left; exact ⟨rfl, rfl⟩
  | ok p =>
      obtain ⟨d, l⟩ := p
      cases hhead : steps.getLocalRepoHeadRef with
      | error e => left; exact ⟨rfl, rfl⟩
      | ok ref =>
          cases hwt : steps.getLocalWorkTree with
          | error e => left; exact ⟨rfl, rfl⟩
          | ok wt =>
              cases hbr : steps.checkoutLocalBranch with
              | error e => left; exact ⟨rfl, rfl⟩
              | ok b =>
                  cases hcmd : steps.executeCommand with
                  | some e => left; exact ⟨rfl, rfl⟩
                  | none =>
                      cases hupd : steps.updateRepoLocal with
                      | some e => left; exact ⟨rfl, rfl⟩
                      | none => exact Or.inr ⟨d, l, rfl, rfl, rfl, rfl, rfl, rfl⟩

/-- C6: when the operator-supplied command exits non-zero or fails to launch in a
pipeline that reached the command step, the task returns exactly that command
error, appends nothing, never invokes the staging and commit step
(UpdateRepoLocal) nor the push and pull request step (UpdateRepoRemote), and the
returned repository value carries only the clone and branch state (empty
directory, nil local handle, the checked out branch name). -/
theorem processRepo_command_error_halts
    (ts : TaskSteps) (repo : GithubRepository) (d : String) (l : GitRepositoryHandle)
    (ref : String) (wt : Nat) (b : String) (e : GoError)
    (hclone : ts.repoSteps.cloneLocalRepository = Except.ok (d, l))
    (hhead : ts.repoSteps.getLocalRepoHeadRef = Except.ok ref)
    (hwt : ts.repoSteps.getLocalWorkTree = Except.ok wt)
    (hbr : ts.repoSteps.checkoutLocalBranch = Except.ok b)
    (hcmd : ts.repoSteps.executeCommand = some e) :
    (taskRun ts repo).err = some e ∧
    (taskRun ts repo).appended = none ∧
    (taskRun ts repo).trace
      = [PipelineStep.clone, PipelineStep.headRef, PipelineStep.worktree,
         PipelineStep.branch, PipelineStep.command] ∧
    PipelineStep.updateLocal ∉ (taskRun ts repo).trace ∧
    PipelineStep.updateRemote ∉ (taskRun ts repo).trace ∧
    (ProcessRepo ts.repoSteps repo).gxargsrepo
      = { RepositoryDir := "", RepositoryRemote := repo,
          RepositoryLocal := none, Branch := b } := by
  have hpr : ProcessRepo ts.repoSteps repo
      = { gxargsrepo := { RepositoryDir := "", RepositoryRemote := repo, RepositoryLocal := none, Branch := b },
          err := some e,
          trace := [PipelineStep.clone, PipelineStep.headRef, PipelineStep.worktree,
            PipelineStep.branch, PipelineStep.command] } := by
    unfold ProcessRepo
    rw [hclone, hhead, hwt, hbr, hcmd]
  have htr : taskRun ts repo
      = { appended := none, err := some e,
          trace := [PipelineStep.clone, PipelineStep.headRef, PipelineStep.worktree,
            PipelineStep.branch, PipelineStep.command] } := by
    unfold taskRun
    rw [hpr]
  rw [htr, hpr]
  refine ⟨rfl, rfl, rfl, ?_, ?_, rfl⟩
  · show PipelineStep.updateLocal ∉ [PipelineStep.clone, PipelineStep.headRef,
      PipelineStep.worktree, PipelineStep.branch, PipelineStep.command]
    decide
  · show PipelineStep.updateRemote ∉ [PipelineStep.clone, PipelineStep.headRef,
      PipelineStep.worktree, PipelineStep.branch, PipelineStep.command]
    decide

/-- Witness for C6 at concrete task oracles whose command exits with status 2. -/
theorem processRepo_command_error_halts_witness :
    (taskRun c6taskSteps { name := "repo-c6" }).err = some "exit status 2" ∧
    (taskRun c6taskSteps { name := "repo-c6" }).appended = none ∧
    (taskRun c6taskSteps { name := "repo-c6" }).trace
      = [PipelineStep.clone, PipelineStep.headRef, PipelineStep.worktree,
         PipelineStep.branch, PipelineStep.command] ∧
    PipelineStep.updateLocal ∉ (taskRun c6taskSteps { name := "repo-c6" }).trace ∧
    PipelineStep.updateRemote ∉ (taskRun c6taskSteps { name := "repo-c6" }).trace ∧
    (ProcessRepo c6taskSteps.repoSteps { name := "repo-c6" }).gxargsrepo
      = { RepositoryDir := "", RepositoryRemote := { name := "repo-c6" },
          RepositoryLocal := none, Branch := "git-xargs-branch" } :=
  processRepo_command_error_halts c6taskSteps { name := "repo-c6" }
    "/tmp/git-xargs-c6" 6 "refs/heads/main" 6 "git-xargs-branch" "exit status 2"
    rfl rfl rfl rfl rfl

/-- C1: in every run of ProcessRepos with a positive ceiling maxConcurrentRepos,
no reachable state has more than that many tasks holding a wait-group slot; and
with ceiling 0 a state is reachable in which all n tasks are active at once. -/
theorem processRepos_concurrency_ceiling (env : OrchEnv) (n : Nat) :
    (∀ s, OrchReach env (initState n) s → 0 < env.maxConcurrentRepos →
      activeCount s.tasks ≤ env.maxConcurrentRepos) ∧
    (env.maxConcurrentRepos = 0 →
      ∃ s, OrchReach env (initState n) s ∧ activeCount s.tasks = n) := by
  constructor
  · intro s hreach hM
    refine activeCount_mono env hreach hM ?_
    rw [activeCount_init]
    omega
  · intro hM
    exact ⟨_, reach_all_started env hM n, activeCount_all_started n⟩

/-- Witness for C1: a concrete two-repository run with ceiling 1 after one start
has one active task, within the bound; and a concrete three-repository run with
ceiling 0 reaches a state with all three tasks active. -/
theorem processRepos_concurrency_ceiling_witness :
    activeCount ({ tasks := [TaskPhase.started, TaskPhase.notStarted], shared := [] } : OrchState).tasks ≤ 1 ∧
    (∃ s, OrchReach c1env0 (initState 3) s ∧ activeCount s.tasks = 3) := by
  constructor
  · exact (processRepos_concurrency_ceiling c1env 2).1
      { tasks := [TaskPhase.started, TaskPhase.notStarted], shared := [] }
      (runActions_reach c1env [OrchAct.start 0] (initState 2)
        { tasks := [TaskPhase.started, TaskPhase.notStarted], shared := [] } (by decide))
      (by decide)
  · exact (processRepos_concurrency_ceiling c1env0 3).2 rfl

/-- C2 is violated by the code: in a completed run whose single pipeline failed at
clone, the goroutine returned a non-nil error, yet ProcessRepos returns a nil
aggregate error (source line 48 always returns nil, and the goroutine return
value has no receiver), and the failed repository contributes nothing to the
returned results. -/
theorem processRepos_returns_nil_aggregate_error :
    (taskRun (c2env.steps 0) (c2env.repoAt 0)).err = some "clone failed" ∧
    OrchReach c2env (initState 1) c2final ∧
    (∀ a u, applyAction c2env a c2final ≠ some u) ∧
    processReposReturn c2final = ([], none) := by
  refine ⟨rfl, ?_, ?_, rfl⟩
  · exact runActions_reach c2env [OrchAct.start 0, OrchAct.compute 0, OrchAct.finishErr 0]
      (initState 1) c2final (by decide)
  · exact allDone_not_enabled c2env c2final (by decide)

/-- C3 is violated by the code: a completed one-repository run whose pipeline
cloned successfully (reaching the Cloned state) and then failed at the command
step returns an empty result list; the partial PipelineResult is discarded, not
preserved. -/
theorem processRepos_discards_failed_partial_result :
    cmdFailRepoSteps.cloneLocalRepository = Except.ok ("/tmp/git-xargs-repo", 1) ∧
    PipelineStep.clone ∈ (ProcessRepo cmdFailRepoSteps { name := "repo-c3" }).trace ∧
    (ProcessRepo cmdFailRepoSteps { name := "repo-c3" }).err = some "exit status 1" ∧
    OrchReach c3env (initState 1) c3final ∧
    (∀ a u, applyAction c3env a c3final ≠ some u) ∧
    processReposReturn c3final = ([], none) := by
  refine ⟨rfl, by decide, rfl, ?_, ?_, rfl⟩
  · exact runActions_reach c3env [OrchAct.start 0, OrchAct.compute 0, OrchAct.finishErr 0]
      (initState 1) c3final (by decide)
  · exact allDone_not_enabled c3env c3final (by decide)

/-- C3 amended: the list ProcessRepos returns contains only results of
repositories whose whole pipeline, including the remote update, succeeded;
results of repositories that failed at any step are discarded rather than
preserved. -/
theorem processRepos_returns_only_successful (env : OrchEnv) (n : Nat) (s : OrchState)
    (hreach : OrchReach env (initState n) s) (r : GitXargsRepository)
    (hr : r ∈ (processReposReturn s).1) :
    ∃ i, i < n ∧ (taskRun (env.steps i) (env.repoAt i)).appended = some r :=
  (orchInv_reach env n hreach).shared r hr

/-- Witness for the amended C3: in a completed fully successful one-repository
run, the single returned result is the one its task appended. -/
theorem processRepos_returns_only_successful_witness :
    ∃ i, i < 1 ∧ (taskRun (c3wenv.steps i) (c3wenv.repoAt i)).appended = some c3wrepo :=
  processRepos_returns_only_successful c3wenv 1 c3wfinal
    (runActions_reach c3wenv
      [OrchAct.start 0, OrchAct.compute 0, OrchAct.read 0, OrchAct.write 0]
      (initState 1) c3wfinal (by decide))
    c3wrepo (by decide)

/-- C4 is violated by the code: the shared slice is appended to by concurrently
running goroutines with no synchronization, so in a two-repository run in which
both pipelines succeed there is a schedule (both tasks read the slice header
before either writes) whose completed final state holds only one of the two
appended results: the first append is lost. -/
theorem processRepos_result_collection_loses_append :
    taskSucceeds (c4env.steps 0) (c4env.repoAt 0) = true ∧
    taskSucceeds (c4env.steps 1) (c4env.repoAt 1) = true ∧
    OrchReach c4env (initState 2) c4final ∧
    (∀ a u, applyAction c4env a c4final ≠ some u) ∧
    (processReposReturn c4final).1 = [c4repo1] ∧
    (processReposReturn c4final).1.length = 1 := by
  refine ⟨rfl, rfl, ?_, ?_, rfl, rfl⟩
  · exact runActions_reach c4env
      [OrchAct.start 0, OrchAct.start 1, OrchAct.compute 0, OrchAct.compute 1,
       OrchAct.read 0, OrchAct.read 1, OrchAct.write 0, OrchAct.write 1]
      (initState 2) c4final (by decide)
  · exact allDone_not_enabled c4env c4final (by decide)

/-- C7: whatever the interleaving and whatever failures occur in other
repositories, a completed (stuck) run of ProcessRepos has every task finished,
and each task's success is exactly the success of its own pipeline and remote
update, a function of that repository's own steps alone. -/
theorem processRepos_fault_isolation (env : OrchEnv) (n : Nat) (s : OrchState)
    (hreach : OrchReach env (initState n) s)
    (hstuck : ∀ a u, applyAction env a s ≠ some u) (i : Nat) (hi : i < n) :
    s.tasks[i]? = some (TaskPhase.done (taskSucceeds (env.steps i) (env.repoAt i))) :=
  stuck_tasks_done env n s (orchInv_reach env n hreach) hstuck i hi

/-- Witness for C7: in a completed two-repository run in which repository 0 fails
at clone, task 1 still finishes and succeeds. -/
theorem processRepos_fault_isolation_witness :
    c7final.tasks[1]? = some (TaskPhase.done (taskSucceeds (c7env.steps 1) (c7env.repoAt 1))) ∧
    (taskRun (c7env.steps 0) (c7env.repoAt 0)).err = some "clone failed" ∧
    taskSucceeds (c7env.steps 1) (c7env.repoAt 1) = true := by
  refine ⟨?_, rfl, rfl⟩
  exact processRepos_fault_isolation c7env 2 c7final
    (runActions_reach c7env
      [OrchAct.start 0, OrchAct.compute 0, OrchAct.finishErr 0,
       OrchAct.start 1, OrchAct.compute 1, OrchAct.read 1, OrchAct.write 1]
      (initState 2) c7final (by decide))
    (allDone_not_enabled c7env c7final (by decide))
    1 (by decide)
